import Mathlib

/-!
# Verification of the Pluto evidence-gated RAG pipeline

A shallow embedding, in Lean 4, of the parts of the Pluto backend
(`src/Pluto/backend/app`) that the specification's claims are about:

* the Compatibility Gate (`app/graph/nodes/gate_node.py`),
* the Evidence Grader and its routing
  (`app/graph/nodes/evidence_grader_node.py`, `app/graph/graph_builder.py`),
* the Conflict Detector (`app/graph/nodes/conflict_detector_node.py`),
* the Qdrant vector store facade (`app/storage/vector_store.py`),
* the file validator (`app/ingestion/validators/file_validator.py`),
* the MMR reranker (`app/retrieval/retrievers/mmr_reranker.py`),
* the embeddings manager cache (`app/embeddings/manager.py`),
* the Llama reasoner (`app/reasoning/llm/llama_reasoner.py`).

Numeric scores are modelled as rationals (`ℚ`); Python exceptions are
modelled with `Except`; dict-shaped state is modelled with structures whose
fields are the keys the relevant code reads and writes.  External effects
(the Qdrant backend, the LLM, the CLIP embedder) are parameters of the
embedded functions: each call site receives the outcome such a call would
produce.
-/

namespace Pluto

/-! ## String helpers mirroring the Python primitives used by the code -/

/-- `needle` matches the leading characters of `hay` (used to model Python
`str.startswith` and as the base case of substring search). -/
def leadMatch : List Char → List Char → Bool
  | [], _ => true
  | _ :: _, [] => false
  | c :: cs, d :: ds => c == d && leadMatch cs ds

/-- Python `needle in hay` on strings: `needle` occurs contiguously in `hay`.
The empty needle occurs in every string, as in Python. -/
def listHasSub (needle : List Char) : List Char → Bool
  | [] => leadMatch needle []
  | c :: cs => leadMatch needle (c :: cs) || listHasSub needle cs

/-- Python `needle in hay` for strings. -/
def strHasSub (needle hay : String) : Bool :=
  listHasSub needle.data hay.data

/-- Python `hay.startswith(needle)`. -/
def strStartsWith (needle hay : String) : Bool :=
  leadMatch needle.data hay.data

/-- Python `s.lower()` (ASCII case folding; all strings the code compares are
ASCII). -/
def strLower (s : String) : String :=
  ⟨s.data.map Char.toLower⟩

/-- Python `s.upper()` (ASCII case folding). -/
def strUpper (s : String) : String :=
  ⟨s.data.map Char.toUpper⟩

/-- Python `s[:n]` on strings. -/
def strTake (n : ℕ) (s : String) : String :=
  ⟨s.data.take n⟩

/-- Python `s.strip()`: drop leading and trailing whitespace. -/
def strTrim (s : String) : String :=
  ⟨((s.data.dropWhile Char.isWhitespace).reverse.dropWhile Char.isWhitespace).reverse⟩

/-- Collapse runs of whitespace to a single space,
modelling `re.sub(r'\s+', ' ', s)`. -/
def collapseSpaces (s : String) : String :=
  ⟨s.data.foldr
    (fun c acc =>
      if c.isWhitespace then
        if acc.head? = some ' ' then acc else ' ' :: acc
      else c :: acc)
    []⟩

/-- Python `s.split()` restricted to the single-space-separated strings the
code produces: split on spaces, dropping empty tokens. -/
def splitWords (s : String) : List String :=
  (s.splitOn " ").filter (fun w => w ≠ "")

/-- Python `repr` of a list of strings, as interpolated by f-strings such as
the gate's `no_match` reason (`{query_concepts}` renders as `['a', 'b']`). -/
def pyReprStrList (l : List String) : String :=
  "[" ++ String.intercalate ", " (l.map (fun s => "'" ++ s ++ "'")) ++ "]"

/-! ## `app/utils/topic_utils.py` — `normalize_topic` -/

/-- Stop words removed by `normalize_topic` (topic_utils.py line 31). -/
def topicStopWords : List String :=
  ["the", "a", "an", "of", "in", "on", "at", "to", "for"]

/-- `normalize_topic` (topic_utils.py lines 11–35): empty input maps to "";
otherwise lowercase, strip, collapse whitespace, drop stop words; if every
word was a stop word, return the pre-filter string. -/
def normalize_topic (topic : String) : String :=
  if topic = "" then ""
  else
    let normalized := collapseSpaces (strTrim (strLower topic))
    let filtered := (splitWords normalized).filter (fun w => w ∉ topicStopWords)
    if filtered ≠ [] then String.intercalate " " filtered else normalized

/-! ## `app/storage/vector_store.py` — the `VectorStore` class surface

The gate, the query-analysis node and the refusal node all call
`VectorStore.get_knowledge_catalog()`.  The class defines no such method, so
Python attribute lookup raises `AttributeError` at every one of those call
sites.  We record the class's method table verbatim from the source and model
the call through it. -/

/-- The knowledge catalog shape the gate expects from the store
(`catalog["topics"]`, `catalog["concepts"]`). -/
structure Catalog where
  topics : List String
  concepts : List String
deriving Repr, DecidableEq

/-- The methods class `VectorStore` actually defines
(vector_store.py lines 16–414). -/
def VectorStore.methodNames : List String :=
  ["__new__", "__init__", "_ensure_collection", "_create_collection",
   "_create_indexes", "add_documents", "query", "query_multimodal",
   "delete_by_session", "get_collection_info", "collection_exists"]

/-- The call `self.vector_store.get_knowledge_catalog()` (gate_node.py
line 70).  Python resolves the attribute against the class's method table;
`get_knowledge_catalog` is absent, so the call raises `AttributeError` whose
`str` is the message below.  The `.ok` branch is unreachable (the membership
test is false) and carries a placeholder catalog only so that both branches
are typed. -/
def VectorStore.getKnowledgeCatalog : Except String Catalog :=
  if "get_knowledge_catalog" ∈ VectorStore.methodNames then
    .ok { topics := [], concepts := [] }
  else
    .error "'VectorStore' object has no attribute 'get_knowledge_catalog'"

/-! ## `app/graph/nodes/gate_node.py` — `CompatibilityGateNode` -/

/-- The slice of the LangGraph state dict that the gate node reads and
writes. -/
structure GateState where
  query : String
  query_topic : String
  query_concepts : List String
  is_allowed : Bool
  gate_reason : String
  refusal_explanation : String
  is_out_of_scope : Bool
deriving Repr, DecidableEq

/-- The semantic-fallback prompt built by `check_semantic_relationship`
(gate_node.py lines 39–44). -/
def semanticPrompt (query_topic topics_str : String) : String :=
  "Task: Determine if the Query Topic belongs to the Knowledge Base.\n" ++
  "Query Topic: " ++ query_topic ++ "\n" ++
  "Knowledge Base Topics: " ++ topics_str ++ "\n\n" ++
  "Is '" ++ query_topic ++ "' related to or a sub-topic of the Knowledge Base? \n" ++
  "Respond with exactly YES or NO."

/-- `CompatibilityGateNode.check_semantic_relationship` (gate_node.py lines
30–54).  `llm` maps the prompt to the outcome of `LlamaReasoner.generate` at
that call site; any exception there is caught and answered `False`. -/
def check_semantic_relationship (llm : String → Except String String)
    (query_topic : String) (doc_topics : List String) : Bool :=
  if query_topic = "" ∨ doc_topics = [] then false
  else
    match llm (semanticPrompt query_topic (String.intercalate ", " doc_topics)) with
    | .ok response => strHasSub "YES" (strUpper (strTrim response))
    | .error _ => false

/-- The body of `CompatibilityGateNode.run` (gate_node.py lines 56–136),
parameterized by the outcome of the catalog fetch on line 70 and by the LLM
used for the semantic fallback.  The `except` handler of the `try` block
corresponds to the `.error` branch of the fetch. -/
def gateRunWith (fetch : Except String Catalog)
    (llm : String → Except String String) (st : GateState) : GateState :=
  match fetch with
  | .error e =>
      { st with
        is_allowed := false
        gate_reason := "compatibility_check_failed: " ++ e
        refusal_explanation :=
          "Unable to verify if your question is within the scope of uploaded documents. Please try rephrasing or check document content."
        is_out_of_scope := true }
  | .ok catalog =>
      let query_topic := normalize_topic st.query_topic
      let query_concepts := st.query_concepts.map normalize_topic
      let doc_topics := catalog.topics.map normalize_topic
      let doc_concepts := catalog.concepts.map normalize_topic
      -- RULE 1: direct concept match (first matching query concept wins)
      match query_concepts.find? (fun concept =>
          doc_concepts.any (fun kb => strHasSub concept kb || strHasSub kb concept)) with
      | some concept =>
          { st with is_allowed := true, gate_reason := "concept_match: " ++ concept }
      | none =>
      -- RULE 1b: query concept occurs inside a knowledge-base topic string
      match query_concepts.find? (fun concept =>
          doc_topics.any (fun t => strHasSub concept (strLower t))) with
      | some concept =>
          { st with is_allowed := true, gate_reason := "concept_in_topic: " ++ concept }
      | none =>
      -- RULE 2: fuzzy topic match (substring in either direction)
      match doc_topics.find? (fun t =>
          strHasSub query_topic t || strHasSub t query_topic) with
      | some doc_t =>
          { st with is_allowed := true,
                    gate_reason := "fuzzy_topic_match: " ++ query_topic ++ " <-> " ++ doc_t }
      | none =>
      -- RULE 3: LLM semantic fallback
      if check_semantic_relationship llm query_topic doc_topics then
        { st with is_allowed := true, gate_reason := "semantic_match_llm" }
      else
      -- RULE 4: refusal
        { st with
          is_allowed := false
          gate_reason :=
            "no_match: query topic '" ++ query_topic ++ "' and concepts " ++
            pyReprStrList query_concepts ++
            " not found in knowledge base topics " ++ pyReprStrList doc_topics ++
            " or concepts " ++ pyReprStrList doc_concepts
          refusal_explanation :=
            "Your question about '" ++ query_topic ++ "' is not covered by the uploaded documents."
          is_out_of_scope := true }

/-- `CompatibilityGateNode.run`: the catalog fetch always resolves through
`VectorStore.getKnowledgeCatalog`. -/
def gateRun (llm : String → Except String String) (st : GateState) : GateState :=
  gateRunWith VectorStore.getKnowledgeCatalog llm st

/-! ## `app/reasoning/llm/llama_reasoner.py` — `LlamaReasoner.generate` -/

/-- `LlamaReasoner.generate` (llama_reasoner.py lines 98–119).  `callResult`
is the outcome of the `create_chat_completion` call and response indexing
inside the `try` block: `.ok s` when it returns content `s`, `.error e` when
anything in the block raises.  The handler catches every exception and
returns a fixed string, so the function itself is total. -/
def LlamaReasoner.generate (callResult : Except String String) : String :=
  match callResult with
  | .ok s => s
  | .error _ => "I encountered an error generating the final answer."

/-! ## `app/graph/nodes/evidence_grader_node.py` — `EvidenceGrader` -/

/-- Payload metadata read by the graph nodes
(`metadata.get('source_file')`, `metadata.get('file_path', '')`);
the empty string stands for an absent (falsy) key. -/
structure DocMeta where
  source_file : String
  file_path : String
deriving Repr, DecidableEq

/-- A retrieved document as the grader and conflict detector consume it. -/
structure Document where
  content : String
  source_type : String
  metadata : DocMeta
deriving Repr, DecidableEq

/-- The grading prompt (evidence_grader_node.py lines 34–39), with the
content truncated to 2000 characters. -/
def gradePrompt (query : String) (doc : Document) : String :=
  "Task: Is this document relevant to the question?\n" ++
  "Question: " ++ query ++ "\n" ++
  "Document: " ++ strTake 2000 doc.content ++ "\n" ++
  "Respond with only 'YES' or 'NO'."

/-- The scoring part of `EvidenceGrader.grade_document` (lines 41–65) as a
function of the outcome observed by its `try` block: a returned response is
parsed for `YES` and scored 0.9 / 0.0; a raised exception is scored 0.5. -/
def gradeDocumentRes (genResult : Except String String) : ℚ :=
  match genResult with
  | .ok response =>
      if strHasSub "YES" (strUpper (strTrim response)) then 9/10 else 0
  | .error _ => 1/2

/-- `EvidenceGrader.grade_document` composed with the real callee: the call
`self.reasoner.generate(...)` is `LlamaReasoner.generate`, a total function,
so the grader's `try` always observes a returned string, never an
exception.  `callResult` is the outcome of the model call inside
`generate`. -/
def gradeDocument (callResult : Except String String) : ℚ :=
  gradeDocumentRes (.ok (LlamaReasoner.generate callResult))

/-- The slice of the LangGraph state dict the grader node and the
post-grading router read and write. -/
structure GraderState where
  query : String
  retrieved_documents : List Document
  evidence_scores : List ℚ
  is_sufficient : Bool
  evidence_score : ℚ
deriving Repr, DecidableEq

/-- Python `max(scores)` with the code's `if evidence_scores else 0.0`
default. -/
def listMaxD : List ℚ → ℚ
  | [] => 0
  | x :: xs => xs.foldl max x

/-- `EvidenceGrader.run` (evidence_grader_node.py lines 67–115).  `gen` maps
each document's grading prompt to the outcome of `reasoner.generate` as seen
by `grade_document`'s `try` block.  The single Python loop that both scores
and filters is rendered as a map and a filter with the same scoring
function; `relevance_threshold` is 0.5. -/
def graderRun (gen : String → Except String String) (st : GraderState) : GraderState :=
  let documents := st.retrieved_documents
  if documents = [] then
    { st with evidence_scores := [], is_sufficient := false, retrieved_documents := [] }
  else
    let score := fun d => gradeDocumentRes (gen (gradePrompt st.query d))
    let evidence_scores := documents.map score
    let graded_docs := documents.filter (fun d => 1/2 ≤ score d)
    { st with
      evidence_scores := evidence_scores
      is_sufficient := graded_docs.length > 0
      retrieved_documents := graded_docs
      evidence_score := listMaxD evidence_scores }

/-- The average computed by `GraphBuilder._route_after_grading`
(graph_builder.py line 136): `sum/len` with 0.0 for an empty list. -/
def avgScore (scores : List ℚ) : ℚ :=
  if scores = [] then 0 else scores.sum / scores.length

/-- `GraphBuilder._route_after_grading` (graph_builder.py lines 122–150):
refuse when no document passed the threshold or when the average score is
below 0.4, otherwise proceed to conflict detection. -/
def route_after_grading (st : GraderState) : String :=
  let avg := avgScore st.evidence_scores
  if ¬ st.is_sufficient then "refusal"
  else if avg < 2/5 then "refusal"
  else "conflict_detector"

/-! ## `app/graph/nodes/conflict_detector_node.py` — `ConflictDetector` -/

/-- Python `path.replace('\\', '/')`. -/
def slashNormalize (s : String) : String :=
  ⟨s.data.map (fun c => if c = '\\' then '/' else c)⟩

/-- `metadata.get('source_file') or metadata.get('file_path', '')`:
the `or` keeps the first truthy value, so an empty `source_file` falls
through to `file_path`. -/
def sourcePath (m : DocMeta) : String :=
  if m.source_file ≠ "" then m.source_file else m.file_path

/-- `path.split('/')[-1] if '/' in path else path` after slash
normalization (conflict_detector_node.py lines 43–53). -/
def sourceName (path : String) : String :=
  let p := slashNormalize path
  if strHasSub "/" p then ((p.splitOn "/").getLastD p) else p

/-- The names the `user_prompt` f-string of `check_conflict` interpolates,
in template order (conflict_detector_node.py lines 64–72). -/
def conflictPromptNames : List String :=
  ["query", "source1", "source1_name", "content1",
   "source2", "source2_name", "content2"]

/-- The names in scope at that point of `check_conflict`: its parameters and
every local assigned before line 64. -/
def conflictBoundNames : List String :=
  ["self", "doc1", "doc2", "query", "content1", "content2",
   "metadata1", "metadata2", "source1_path", "source2_path",
   "source1_name", "source2_name", "system_prompt"]

/-- The interpolated names that do not resolve.  `source1` and `source2` are
free: the template was written for variables that were renamed to
`source1_path`/`source1_name` without updating the template. -/
def conflictUnboundNames : List String :=
  conflictPromptNames.filter (fun n => n ∉ conflictBoundNames)

/-- `ConflictDetector.check_conflict` (conflict_detector_node.py lines
19–107).  The locals up to `system_prompt` are computed; then the
`user_prompt` f-string is evaluated.  Python raises `NameError` at the first
interpolated name that does not resolve — before the `try` block on line 77
is ever entered, so the error escapes the function.  The `.ok` branch is
unreachable (`conflictUnboundNames` is nonempty); the LLM call and the
response parsing on lines 77–107 are dead code. -/
def checkConflict (doc1 doc2 : Document) (query : String) : Except String String :=
  let content1 := strTake 1500 doc1.content
  let content2 := strTake 1500 doc2.content
  let source1_name := sourceName (sourcePath doc1.metadata)
  let source2_name := sourceName (sourcePath doc2.metadata)
  let _ := (query, content1, content2, source1_name, source2_name)
  if conflictUnboundNames.isEmpty then
    .ok ""
  else
    .error ("name '" ++ conflictUnboundNames.headD "" ++ "' is not defined")

/-- The slice of the LangGraph state dict the conflict-detector node reads
and writes. -/
structure ConflictState where
  query : String
  retrieved_documents : List Document
  conflicts : List String
  is_conflicting : Bool
deriving Repr, DecidableEq

/-- `itertools.combinations(l, 2)`: all unordered pairs, in iteration
order. -/
def allPairs : List α → List (α × α)
  | [] => []
  | x :: xs => xs.map (fun y => (x, y)) ++ allPairs xs

/-- The same-source skip of `ConflictDetector.run` (lines 139–148): a pair
is skipped when both paths are nonempty and equal. -/
def sameSourcePair (d1 d2 : Document) : Bool :=
  sourcePath d1.metadata ≠ "" && sourcePath d2.metadata ≠ "" &&
    sourcePath d1.metadata = sourcePath d2.metadata

/-- The pair loop of `ConflictDetector.run` (lines 139–152): skip
same-source pairs, call `check_conflict` on the rest, collect nonempty
conflict descriptions.  An exception from `check_conflict` propagates: the
loop has no handler. -/
def conflictPairsRun (query : String) :
    List (Document × Document) → Except String (List String)
  | [] => .ok []
  | (d1, d2) :: rest =>
      if sameSourcePair d1 d2 then conflictPairsRun query rest
      else
        match checkConflict d1 d2 query with
        | .error e => .error e
        | .ok c =>
            match conflictPairsRun query rest with
            | .error e => .error e
            | .ok cs => .ok (if c ≠ "" then c :: cs else cs)

/-- `ConflictDetector.run` (conflict_detector_node.py lines 109–165): with
fewer than two documents the check is skipped and no conflict reported;
otherwise all pairs among the first five documents are checked. -/
def conflictRun (st : ConflictState) : Except String ConflictState :=
  if st.retrieved_documents.length < 2 then
    .ok { st with conflicts := [], is_conflicting := false }
  else
    match conflictPairsRun st.query (allPairs (st.retrieved_documents.take 5)) with
    | .error e => .error e
    | .ok conflicts =>
        .ok { st with conflicts := conflicts, is_conflicting := conflicts.length > 0 }

/-! ## `app/storage/vector_store.py` — `query`, `query_multimodal`,
`add_documents`

The Qdrant client is external: each embedded operation takes the outcome the
backend call would produce.  A `.ok hits` outcome is the point list
`query_points(...).points` returns; a `.error` outcome is an exception
raised by the client. -/

/-- One point returned by the backend: its id, the `content` payload field,
the full payload, and the similarity score. -/
structure Hit where
  id : String
  content : String
  payload : List (String × String)
  score : ℚ
deriving Repr, DecidableEq

/-- The dict `VectorStore.query` returns. -/
structure QueryResult where
  status : String
  message : String
  ids : List String
  documents : List String
  metadatas : List (List (String × String))
  scores : List ℚ
  distances : List ℚ
deriving Repr, DecidableEq

/-- `VectorStore.query` (vector_store.py lines 176–245): formats the
backend's points into parallel lists on success; catches every exception and
returns a `status: error` dict instead of raising. -/
def VectorStore.query (backend : Except String (List Hit)) : QueryResult :=
  match backend with
  | .ok hits =>
      { status := "success"
        message := ""
        ids := hits.map (·.id)
        documents := hits.map (·.content)
        metadatas := hits.map (·.payload)
        scores := hits.map (·.score)
        distances := hits.map (fun h => 1 - h.score) }
  | .error e =>
      { status := "error", message := e
        ids := [], documents := [], metadatas := [], scores := [], distances := [] }

/-- An element of `all_results` in `query_multimodal`: the per-point record
the merge loop accumulates (lines 316–323). -/
structure MergedEntry where
  id : String
  content : String
  metadata : List (String × String)
  score : ℚ
  matched_vector_space : String
  matched_spaces : List String
deriving Repr, DecidableEq

/-- The duplicate-id update of the merge loop (lines 301–312): keep the
higher score (and its space), and append the current space to
`matched_spaces` unconditionally. -/
def bumpEntry (space : String) (score : ℚ) (r : MergedEntry) : MergedEntry :=
  { r with
    score := if score > r.score then score else r.score
    matched_vector_space := if score > r.score then space else r.matched_vector_space
    matched_spaces := r.matched_spaces ++ [space] }

/-- Apply `bumpEntry` to the first entry with the given id (the Python loop
over `all_results` breaks at the first match). -/
def updateEntry (space : String) (score : ℚ) (id : String) :
    List MergedEntry → List MergedEntry
  | [] => []
  | r :: rs =>
      if r.id = id then bumpEntry space score r :: rs
      else r :: updateEntry space score id rs

/-- The record first appended for a hit not seen before (lines 316–323). -/
def freshEntry (space : String) (h : Hit) : MergedEntry :=
  { id := h.id, content := h.content, metadata := h.payload,
    score := h.score, matched_vector_space := space,
    matched_spaces := [space] }

/-- One iteration of the inner loop of `query_multimodal` (lines 297–323).
`seen_ids` always equals the set of ids already in `all_results`, so the
membership test is taken on the accumulator directly. -/
def mergeHit (space : String) (acc : List MergedEntry) (h : Hit) : List MergedEntry :=
  if (acc.map (·.id)).contains h.id then
    updateEntry space h.score h.id acc
  else
    acc ++ [freshEntry space h]

/-- One iteration of the outer loop of `query_multimodal` (lines 282–327):
call `self.query` for the space; a non-success status is skipped
(`continue`); on success the parallel result lists are walked by index,
which visits exactly the backend's hits in order.  `self.query` never
raises, so the surrounding `except` clause is unreachable. -/
def mergeSpace (backend : String → Except String (List Hit))
    (acc : List MergedEntry) (space : String) : List MergedEntry :=
  if (VectorStore.query (backend space)).status ≠ "success" then acc
  else
    match backend space with
    | .ok hits => hits.foldl (mergeHit space) acc
    | .error _ => acc

/-- The full merge over the requested spaces, starting from an empty
`all_results`. -/
def mergeAll (backend : String → Except String (List Hit))
    (spaces : List String) : List MergedEntry :=
  spaces.foldl (mergeSpace backend) []

/-- Stable insertion by descending score: a new entry goes after existing
entries of greater-or-equal score. -/
def insertDesc (x : MergedEntry) : List MergedEntry → List MergedEntry
  | [] => [x]
  | y :: ys => if x.score > y.score then x :: y :: ys else y :: insertDesc x ys

/-- `all_results.sort(key=score, reverse=True)`: Python's sort is stable;
left-to-right stable insertion by descending score models it. -/
def sortByScoreDesc (l : List MergedEntry) : List MergedEntry :=
  l.foldl (fun acc x => insertDesc x acc) []

/-- The default `vector_spaces` (line 275). -/
def defaultVectorSpaces : List String :=
  ["text_embedding", "image_embedding", "audio_embedding"]

/-- The dict `query_multimodal` returns.  In the source the final loop
copies `matched_vector_space` and `matched_spaces` into each result's
metadata dict; here each `MergedEntry` carries them as fields. -/
structure MultimodalResult where
  status : String
  results : List MergedEntry
  searched_spaces : List String
  total_results : ℕ
deriving Repr, DecidableEq

/-- `VectorStore.query_multimodal` (vector_store.py lines 247–370): merge
all spaces, sort by descending score, truncate to `n_results`.  Both the
empty and the non-empty exit return `status: success`. -/
def queryMultimodal (backend : String → Except String (List Hit))
    (spaces : List String) (n_results : ℕ) : MultimodalResult :=
  let all_results := mergeAll backend spaces
  if all_results = [] then
    { status := "success", results := [], searched_spaces := spaces, total_results := 0 }
  else
    let final := (sortByScoreDesc all_results).take n_results
    { status := "success", results := final, searched_spaces := spaces,
      total_results := final.length }

/-- A Qdrant client exception: `UnexpectedResponse` is handled specially by
`add_documents`; everything else goes through the generic handler. -/
inductive QdrantErr where
  | unexpectedResponse (msg : String)
  | generic (msg : String)
deriving Repr, DecidableEq

/-- A document handed to `add_documents`; an empty embedding list stands for
a missing (falsy) key. -/
structure DocInput where
  id : String
  text_embedding : List ℚ
  image_embedding : List ℚ
  audio_embedding : List ℚ
  payload : List (String × String)
deriving Repr, DecidableEq

/-- A Qdrant `PointStruct`. -/
structure Point where
  id : String
  vectors : List (String × List ℚ)
  payload : List (String × String)
deriving Repr, DecidableEq

/-- The point-building loop of `add_documents` (lines 124–144): the id falls
back to a fresh UUID (`uuid` supplies the value for the i-th document),
vectors are collected per modality, and documents with no vector at all are
skipped. -/
def buildPoints (uuid : ℕ → String) (docs : List DocInput) : List Point :=
  (docs.enum).filterMap (fun di =>
    let doc := di.2
    let vectors :=
      (if doc.text_embedding ≠ [] then [("text_embedding", doc.text_embedding)] else []) ++
      (if doc.image_embedding ≠ [] then [("image_embedding", doc.image_embedding)] else []) ++
      (if doc.audio_embedding ≠ [] then [("audio_embedding", doc.audio_embedding)] else [])
    if vectors = [] then none
    else some { id := if doc.id ≠ "" then doc.id else uuid di.1
                vectors := vectors, payload := doc.payload })

/-- `points[i:i+100]` batching (lines 149–154). -/
def batches100 : List α → List (List α)
  | [] => []
  | x :: xs => ((x :: xs).take 100) :: batches100 ((x :: xs).drop 100)
  termination_by l => l.length
  decreasing_by simp; omega

/-- The upsert loop (lines 153–160): upsert each batch in order, counting
indexed points; the first backend exception aborts the loop and propagates. -/
def upsertBatches (upsert : List Point → Except QdrantErr Unit) :
    List (List Point) → Except QdrantErr ℕ
  | [] => .ok 0
  | b :: bs =>
      match upsert b with
      | .error e => .error e
      | .ok _ =>
          match upsertBatches upsert bs with
          | .error e => .error e
          | .ok k => .ok (b.length + k)

/-- The dict `add_documents` returns on a non-raising path. -/
structure AddResult where
  status : String
  indexed : ℕ
  message : String
deriving Repr, DecidableEq

/-- `VectorStore.add_documents` (vector_store.py lines 116–174).  `upsert
attempt` is the backend behaviour on the given retry round: on an
`UnexpectedResponse` whose text contains "doesn't exist" the code recreates
the collection and re-invokes itself — an unbounded recursion in Python,
bounded here by `fuel` (`none` models a computation that never returns).
Any other exception is logged and re-raised (`.error`). -/
def addDocumentsAux (uuid : ℕ → String)
    (upsert : ℕ → List Point → Except QdrantErr Unit) (docs : List DocInput) :
    ℕ → ℕ → Option (Except String AddResult)
  | _, 0 => none
  | attempt, fuel + 1 =>
      if docs = [] then some (.ok { status := "success", indexed := 0, message := "" })
      else
        let points := buildPoints uuid docs
        if points = [] then
          some (.ok { status := "warning", indexed := 0, message := "No valid points" })
        else
          match upsertBatches (upsert attempt) (batches100 points) with
          | .ok n => some (.ok { status := "success", indexed := n, message := "" })
          | .error (.unexpectedResponse m) =>
              if strHasSub "doesn't exist" m then
                addDocumentsAux uuid upsert docs (attempt + 1) fuel
              else some (.error m)
          | .error (.generic m) => some (.error m)

/-- `VectorStore.add_documents`, starting on retry round 0. -/
def addDocuments (uuid : ℕ → String)
    (upsert : ℕ → List Point → Except QdrantErr Unit)
    (docs : List DocInput) (fuel : ℕ) : Option (Except String AddResult) :=
  addDocumentsAux uuid upsert docs 0 fuel

/-! ## `app/ingestion/validators/file_validator.py` — `FileValidator` -/

/-- `FileValidator.ALLOWED_EXTENSIONS` (file_validator.py lines 9–15). -/
def ALLOWED_EXTENSIONS : List String :=
  [".pdf", ".doc", ".docx", ".txt", ".png", ".jpg", ".jpeg", ".mp3", ".wav"]

/-- `FileValidator.MAX_SIZE_MB` (line 17). -/
def MAX_SIZE_MB : ℚ := 50

/-- What `FileValidator.validate` observes about a file: existence,
readability, `Path(file_path).suffix`, and `path.stat().st_size`. -/
structure FileRecord where
  existsOnDisk : Bool
  readable : Bool
  ext : String
  sizeBytes : ℕ
deriving Repr, DecidableEq

/-- `FileValidator.validate` (file_validator.py lines 22–53): reject
missing or unreadable files, then unknown extensions (lower-cased suffix
not in the allowed set), then files whose size in megabytes exceeds 50.
The byte count is divided by 1024·1024 exactly as in the source. -/
def FileValidator.validate (f : FileRecord) : Bool :=
  if ¬ f.existsOnDisk then false
  else if ¬ f.readable then false
  else if strLower f.ext ∉ ALLOWED_EXTENSIONS then false
  else if ((f.sizeBytes : ℚ) / (1024 * 1024)) > MAX_SIZE_MB then false
  else true

/-- The extension list the specification (§6) claims the ingestion boundary
accepts.  Stated from the spec's words, for comparison with
`ALLOWED_EXTENSIONS` above. -/
def specAllowedExtensions : List String :=
  [".txt", ".md", ".html", ".htm", ".json", ".xml", ".csv", ".pdf", ".jpg",
   ".jpeg", ".png", ".gif", ".bmp", ".webp", ".tiff", ".tif", ".mp3", ".wav",
   ".m4a", ".ogg", ".flac", ".aac", ".wma"]

/-! ## `app/retrieval/retrievers/mmr_reranker.py` — `MMRReranker`

`_cosine_similarity` computes a real-valued cosine with numpy floating
point; it is abstracted as a parameter `cosSim`, and every property proved
below holds for an arbitrary such function. -/

/-- `settings.mmr_lambda` (config.py line 125). -/
def mmr_lambda : ℚ := 7/10

/-- `_compute_similarity_matrix` (mmr_reranker.py lines 48–70): the entry at
`(i, j)` is computed once for `i ≤ j` and mirrored. -/
def simMatrixAt (cosSim : List ℚ → List ℚ → ℚ) (embs : List (List ℚ))
    (i j : ℕ) : ℚ :=
  if i ≤ j then cosSim (embs.getD i []) (embs.getD j [])
  else cosSim (embs.getD j []) (embs.getD i [])

/-- `max(mmr_scores, key=lambda x: x[1])`: the first pair attaining the
maximal second component (Python's `max` keeps the earliest maximum). -/
def pickMax : List (ℕ × ℚ) → Option (ℕ × ℚ)
  | [] => none
  | p :: ps => some (ps.foldl (fun best q => if q.2 > best.2 then q else best) p)

/-- The selection loop of `rerank` (lines 110–140): `k` counts the remaining
iterations; each round scores every remaining index by
`λ·relevance − (1−λ)·max-similarity-to-selected`, picks the maximum, moves
it from `remaining` to `selected` and emits it. -/
def mmrSelect (lam : ℚ) (querySims : List ℚ) (simAt : ℕ → ℕ → ℚ) :
    ℕ → List ℕ → List ℕ → List ℕ
  | 0, _, _ => []
  | k + 1, selected, remaining =>
      if remaining = [] then []
      else
        let mmrScores := remaining.map (fun idx =>
          let relevance := querySims.getD idx 0
          let diversity :=
            if selected = [] then 0
            else listMaxD (selected.map (fun s => simAt idx s))
          (idx, lam * relevance - (1 - lam) * diversity))
        match pickMax mmrScores with
        | none => []
        | some best =>
            best.1 ::
              mmrSelect lam querySims simAt k (selected ++ [best.1])
                (remaining.erase best.1)

/-- A result row of `rerank`: either a raw document dict (the
length-mismatch early return, line 96) or a copy annotated with
`mmr_score`, `mmr_rank` and the extended `retrieval_method`. -/
inductive MMROut (α : Type) where
  | plain (doc : α)
  | ranked (doc : α) (mmr_score : ℚ) (mmr_rank : ℕ) (retrieval_method : String)
deriving Repr, DecidableEq

/-- The underlying document of a rerank result row. -/
def MMROut.doc : MMROut α → α
  | .plain d => d
  | .ranked d _ _ _ => d

/-- `MMRReranker.rerank` (mmr_reranker.py lines 72–152).  `methodOf` models
`doc.get('retrieval_method', 'dense')`.  The `mmr_score` attached to a
selected document is its query similarity (line 146), not its MMR value. -/
def MMRReranker.rerank [Inhabited α] (cosSim : List ℚ → List ℚ → ℚ)
    (methodOf : α → String) (lambda_param : ℚ) (query_embedding : List ℚ)
    (documents : List α) (document_embeddings : List (List ℚ))
    (top_k : ℕ) : List (MMROut α) :=
  if documents.isEmpty || document_embeddings.isEmpty then []
  else if documents.length ≠ document_embeddings.length then
    (documents.take top_k).map .plain
  else
    let n_docs := documents.length
    let k := min top_k n_docs
    let querySims := document_embeddings.map (fun emb => cosSim query_embedding emb)
    let simAt := simMatrixAt cosSim document_embeddings
    let selected := mmrSelect lambda_param querySims simAt k [] (List.range n_docs)
    selected.enum.map (fun p =>
      .ranked (documents.getD p.2 default) (querySims.getD p.2 0) (p.1 + 1)
        (methodOf (documents.getD p.2 default) ++ "+mmr"))

/-! ## `app/embeddings/manager.py` — `EmbeddingsManager.embed_text` -/

/-- `self._cache_max_size` (manager.py line 37). -/
def cacheMaxSize : ℕ := 1000

/-- Lookup in the cache dict, keyed by the text hash. -/
def assocLookup (k : String) (l : List (String × V)) : Option V :=
  (l.find? (fun p => p.1 = k)).map (·.2)

/-- `EmbeddingsManager.embed_text` (manager.py lines 41–73).  The cache dict
is modelled as an association list in insertion order, so
`next(iter(cache))` — the FIFO eviction victim — is its head.  `hash` models
`md5(text).hexdigest()`; `embedder` models `self.embedder.embed`.  Returns
the embedding and the updated cache. -/
def embed_text (hash : String → String) (embedder : String → V)
    (useCache : Bool) (cache : List (String × V)) (text : String) :
    V × List (String × V) :=
  if useCache then
    match assocLookup (hash text) cache with
    | some v => (v, cache)
    | none =>
        let embedding := embedder text
        let cache1 := if cacheMaxSize ≤ cache.length then cache.tail else cache
        (embedding, cache1 ++ [(hash text, embedding)])
  else (embedder text, cache)

/-- The cache invariant: every stored pair is the hash and embedding of some
text. -/
def cacheWF (hash : String → String) (embedder : String → V)
    (cache : List (String × V)) : Prop :=
  ∀ p ∈ cache, ∃ t, p.1 = hash t ∧ p.2 = embedder t

/-! ## Specification-side vocabulary

Helpers used only to state properties: what the backend returned for a
space, the per-space score of a chunk id, and the first argmax of a score
list. -/

/-- The first accumulated entry carrying a given chunk id. -/
def entryFor : List MergedEntry → String → Option MergedEntry
  | [], _ => none
  | r :: rs, x => if r.id = x then some r else entryFor rs x

/-- The first hit of a result list carrying a given chunk id. -/
def hitFor : List Hit → String → Option Hit
  | [], _ => none
  | h :: hs, x => if h.id = x then some h else hitFor hs x

/-- The hits a space contributes: the backend's points on success, nothing
on failure (a failed space is skipped by the merge loop). -/
def spaceHits (backend : String → Except String (List Hit)) (s : String) : List Hit :=
  match backend s with
  | .ok hits => hits
  | .error _ => []

/-- The score a chunk id obtained in one space, if it matched there. -/
def findHitScore (backend : String → Except String (List Hit)) (s id : String) :
    Option ℚ :=
  (hitFor (spaceHits backend s) id).map (·.score)

/-- All scores a chunk id obtained across the searched spaces, in space
order. -/
def scoresFor (backend : String → Except String (List Hit))
    (spaces : List String) (id : String) : List ℚ :=
  spaces.filterMap (fun s => findHitScore backend s id)

/-- The spaces in which a chunk id matched, in search order. -/
def matchingSpaces (backend : String → Except String (List Hit))
    (spaces : List String) (id : String) : List String :=
  spaces.filter (fun s => (findHitScore backend s id).isSome)

/-- Invariant of the merge loop after processing the spaces in `processed`:
ids are distinct, and the entry recorded for a chunk id carries exactly the
spaces in which the id matched so far and the maximum of its scores so
far. -/
def mergeInv (backend : String → Except String (List Hit))
    (processed : List String) (acc : List MergedEntry) : Prop :=
  ((acc.map (·.id)).Nodup) ∧
  ∀ x, match entryFor acc x with
    | none => matchingSpaces backend processed x = []
    | some r =>
        r.id = x ∧ r.matched_spaces = matchingSpaces backend processed x ∧
        r.score ∈ scoresFor backend processed x ∧
        ∀ q ∈ scoresFor backend processed x, q ≤ r.score

/-- The index of the first maximal element of a score list (0 for the empty
list). -/
def firstArgmax : List ℚ → ℕ
  | [] => 0
  | [_] => 0
  | x :: y :: rest =>
      let j := firstArgmax (y :: rest)
      if x < (y :: rest).getD j 0 then j + 1 else 0

/-! ## Theorems -/

instance {ε α : Type} [DecidableEq ε] [DecidableEq α] : DecidableEq (Except ε α)
  | .error e₁, .error e₂ =>
      if h : e₁ = e₂ then .isTrue (by rw [h]) else .isFalse (by simp [h])
  | .error _, .ok _ => .isFalse (by simp)
  | .ok _, .error _ => .isFalse (by simp)
  | .ok a₁, .ok a₂ =>
      if h : a₁ = a₂ then .isTrue (by rw [h]) else .isFalse (by simp [h])

/-- The catalog fetch of the gate reduces to the `AttributeError`. -/
theorem getKnowledgeCatalog_error :
    VectorStore.getKnowledgeCatalog =
      Except.error "'VectorStore' object has no attribute 'get_knowledge_catalog'" := by
  decide

/-- The gate's failure `gate_reason` starts with the fail-closed marker. -/
theorem checkFailedReasonStarts :
    strStartsWith "compatibility_check_failed"
      ("compatibility_check_failed: 'VectorStore' object has no attribute 'get_knowledge_catalog'") = true := by
  decide

/-- Grading the fixed error string of `LlamaReasoner.generate` yields 0. -/
theorem gradeErrStringZero :
    gradeDocumentRes (.ok "I encountered an error generating the final answer.") = 0 := by
  decide

/-- C1: for every query state and every LLM behaviour, the Compatibility
Gate's `run` returns a state with `is_allowed = False` and a `gate_reason`
beginning with `compatibility_check_failed`: the catalog lookup calls
`VectorStore.get_knowledge_catalog()`, a method the `VectorStore` class does
not define, so the `AttributeError` handler denies every query and the four
allow rules are unreachable. -/
theorem gate_always_denies_compatibility_check_failed
    (llm : String → Except String String) (st : GateState) :
    (gateRun llm st).is_allowed = false ∧
    strStartsWith "compatibility_check_failed" (gateRun llm st).gate_reason = true ∧
    (gateRun llm st).is_out_of_scope = true := by
  rw [gateRun, getKnowledgeCatalog_error]
  exact ⟨rfl, checkFailedReasonStarts, rfl⟩

/-- C3 (code bug): at a concrete query against an empty knowledge base, the
gate's reason is `compatibility_check_failed: ...`, not
`empty_knowledge_base`: the gate never inspects the catalog (the lookup
raises before it could), so the empty-catalog case cannot be given its
documented reason. -/
theorem gate_empty_catalog_reason_is_check_failed :
    (gateRun (fun _ => .ok "NO")
        { query := "What is photosynthesis?", query_topic := "Photosynthesis",
          query_concepts := ["photosynthesis"], is_allowed := true,
          gate_reason := "", refusal_explanation := "",
          is_out_of_scope := false }).gate_reason =
      "compatibility_check_failed: 'VectorStore' object has no attribute 'get_knowledge_catalog'" ∧
    (gateRun (fun _ => .ok "NO")
        { query := "What is photosynthesis?", query_topic := "Photosynthesis",
          query_concepts := ["photosynthesis"], is_allowed := true,
          gate_reason := "", refusal_explanation := "",
          is_out_of_scope := false }).gate_reason ≠ "empty_knowledge_base" := by
  rw [gateRun, getKnowledgeCatalog_error]
  exact ⟨rfl, by decide⟩

/-- C10: `LlamaReasoner.generate` never raises — every model failure is
caught and mapped to a fixed error string — so the evidence grader's
exception branch (neutral score 0.5) is unreachable: `gradeDocument`, which
observes `generate`'s returned string, never scores 0.5, and an LLM failure
during grading scores 0.0 because the error string contains no `YES`. -/
theorem generate_total_grader_error_scores_zero :
    (∀ e, LlamaReasoner.generate (.error e) =
      "I encountered an error generating the final answer.") ∧
    (∀ callResult, gradeDocument callResult ≠ 1/2) ∧
    (∀ e, gradeDocument (.error e) = 0) := by
  refine ⟨fun e => rfl, fun callResult => ?_, fun e => gradeErrStringZero⟩
  cases callResult with
  | ok s =>
      show gradeDocumentRes (.ok s) ≠ 1/2
      rw [gradeDocumentRes]
      split <;> norm_num
  | error e =>
      show gradeDocumentRes
          (.ok "I encountered an error generating the final answer.") ≠ 1/2
      rw [gradeErrStringZero]
      norm_num

/-- C4 (code bug): with two retrieved documents from different source files
the conflict stage raises `NameError` — the `user_prompt` f-string of
`check_conflict` references the undefined names `source1`/`source2` outside
the `try` block — while with a single document it is skipped and reports no
conflict, as specified. -/
theorem conflict_run_raises_name_error :
    conflictRun
      { query := "What is the capital of Ruritania?"
        retrieved_documents :=
          [{ content := "The capital of Ruritania is Arcadia.",
             source_type := "text",
             metadata := { source_file := "a.txt", file_path := "" } },
           { content := "The capital of Ruritania is Borogove.",
             source_type := "text",
             metadata := { source_file := "b.txt", file_path := "" } }]
        conflicts := ["stale"], is_conflicting := true } =
      .error "name 'source1' is not defined" ∧
    conflictRun
      { query := "What is the capital of Ruritania?"
        retrieved_documents :=
          [{ content := "The capital of Ruritania is Arcadia.",
             source_type := "text",
             metadata := { source_file := "a.txt", file_path := "" } }]
        conflicts := ["stale"], is_conflicting := true } =
      .ok { query := "What is the capital of Ruritania?"
            retrieved_documents :=
              [{ content := "The capital of Ruritania is Arcadia.",
                 source_type := "text",
                 metadata := { source_file := "a.txt", file_path := "" } }]
            conflicts := [], is_conflicting := false } := by
  constructor <;> decide

/-- C2: each chunk scores 0.9 when the LLM judgement contains `YES` and 0.0
otherwise, 0.5 when the grading call errors; the kept set is exactly the
chunks scoring at least 0.5; and the pipeline proceeds past grading to
conflict detection if and only if at least one chunk passed and the mean of
all per-chunk scores is at least 0.4, otherwise it routes to refusal. -/
theorem grading_scores_and_routing (gen : String → Except String String)
    (st : GraderState) :
    (graderRun gen st).evidence_scores =
        st.retrieved_documents.map
          (fun d => gradeDocumentRes (gen (gradePrompt st.query d))) ∧
    (graderRun gen st).retrieved_documents =
        st.retrieved_documents.filter
          (fun d => 1/2 ≤ gradeDocumentRes (gen (gradePrompt st.query d))) ∧
    (∀ r, gradeDocumentRes (.ok r) =
        if strHasSub "YES" (strUpper (strTrim r)) then 9/10 else 0) ∧
    (∀ e, gradeDocumentRes (.error e) = 1/2) ∧
    (route_after_grading (graderRun gen st) = "conflict_detector" ↔
        1 ≤ (graderRun gen st).retrieved_documents.length ∧
        2/5 ≤ avgScore (graderRun gen st).evidence_scores) ∧
    (route_after_grading (graderRun gen st) = "conflict_detector" ∨
        route_after_grading (graderRun gen st) = "refusal") := by
  have hne : ("refusal" : String) ≠ "conflict_detector" := by decide
  by_cases hdocs : st.retrieved_documents = []
  · have hrun : graderRun gen st =
        { st with evidence_scores := [], is_sufficient := false,
                  retrieved_documents := [] } := by
      simp [graderRun, hdocs]
    rw [hrun, hdocs]
    refine ⟨by simp, by simp, fun r => rfl, fun e => rfl, ?_, ?_⟩
    · rw [route_after_grading]
      simp only [Bool.false_eq_true, not_false_eq_true, if_pos]
      constructor
      · intro h
        exact absurd h hne
      · rintro ⟨h1, -⟩
        simp at h1
    · right
      rw [route_after_grading]
      simp
  · have hrun : graderRun gen st =
        { st with
          evidence_scores := st.retrieved_documents.map
            (fun d => gradeDocumentRes (gen (gradePrompt st.query d)))
          is_sufficient := decide (0 < (st.retrieved_documents.filter
            (fun d => 1/2 ≤ gradeDocumentRes (gen (gradePrompt st.query d)))).length)
          retrieved_documents := st.retrieved_documents.filter
            (fun d => 1/2 ≤ gradeDocumentRes (gen (gradePrompt st.query d)))
          evidence_score := listMaxD (st.retrieved_documents.map
            (fun d => gradeDocumentRes (gen (gradePrompt st.query d)))) } := by
      simp [graderRun, hdocs]
    rw [hrun]
    refine ⟨rfl, rfl, fun r => rfl, fun e => rfl, ?_, ?_⟩
    · rw [route_after_grading]
      split
      · rename_i hsuff
        constructor
        · intro h
          exact absurd h hne
        · rintro ⟨h1, -⟩
          simp only [decide_eq_true_eq, not_lt] at hsuff
          simp only at h1
          omega
      · split
        · rename_i havg
          constructor
          · intro h
            exact absurd h hne
          · rintro ⟨-, h2⟩
            exact absurd h2 (not_le.mpr havg)
        · rename_i hsuff havg
          simp only [decide_eq_true_eq, not_not] at hsuff
          refine ⟨fun _ => ⟨?_, not_lt.mp havg⟩, fun _ => rfl⟩
          simp only [not_lt] at hsuff ⊢
          omega
    · rw [route_after_grading]
      split
      · right; rfl
      · split
        · right; rfl
        · left; rfl

/-- C6 counterexample: a readable 1000-byte `.md` file refutes the claimed
acceptance condition — the spec's extension list says accept, the code's
validator rejects (its allowed set is
`.pdf .doc .docx .txt .png .jpg .jpeg .mp3 .wav`). -/
theorem file_validator_spec_list_counterexample :
    ¬ (FileValidator.validate
        { existsOnDisk := true, readable := true, ext := ".md", sizeBytes := 1000 } = true ↔
      (strLower ".md" ∈ specAllowedExtensions ∧
        (1000 : ℕ) ≤ 50 * 1024 * 1024)) := by
  decide

/-- The size test of the validator, exactly: `size/(1024*1024) > 50` over
the rationals is the same as exceeding 50 MiB in bytes. -/
theorem validate_size_test (n : ℕ) :
    (((n : ℚ) / (1024 * 1024)) > MAX_SIZE_MB) ↔ 50 * 1024 * 1024 < n := by
  rw [MAX_SIZE_MB, gt_iff_lt, lt_div_iff₀ (by norm_num : (0 : ℚ) < 1024 * 1024)]
  constructor
  · intro h
    exact_mod_cast h
  · intro h
    exact_mod_cast h

/-- The acceptance condition of `FileValidator.validate` for existing,
readable files. -/
theorem validate_true_iff (f : FileRecord)
    (hex : f.existsOnDisk = true) (hrd : f.readable = true) :
    FileValidator.validate f = true ↔
      (strLower f.ext ∈ ALLOWED_EXTENSIONS ∧ f.sizeBytes ≤ 50 * 1024 * 1024) := by
  rw [FileValidator.validate, hex, hrd]
  by_cases hm : strLower f.ext ∈ ALLOWED_EXTENSIONS
  · by_cases hs : ((f.sizeBytes : ℚ) / (1024 * 1024)) > MAX_SIZE_MB
    · have h2 : ¬ f.sizeBytes ≤ 50 * 1024 * 1024 := by
        have := (validate_size_test f.sizeBytes).mp hs
        omega
      simp [hm, hs, h2]
    · have h2 : f.sizeBytes ≤ 50 * 1024 * 1024 := by
        have h3 : ¬ 50 * 1024 * 1024 < f.sizeBytes :=
          fun h => hs ((validate_size_test f.sizeBytes).mpr h)
        omega
      simp [hm, hs, h2]
  · simp [hm]

/-- C6 amended: for an existing, readable file, validation accepts if and
only if the lower-cased extension is one of
`.pdf .doc .docx .txt .png .jpg .jpeg .mp3 .wav` and the size is at most
50 MB; a file of exactly 50 MB is accepted and one of 50 MB plus one byte
is rejected. -/
theorem file_validator_accepts_iff (f : FileRecord)
    (hex : f.existsOnDisk = true) (hrd : f.readable = true) :
    (FileValidator.validate f = true ↔
      (strLower f.ext ∈ ALLOWED_EXTENSIONS ∧ f.sizeBytes ≤ 50 * 1024 * 1024)) ∧
    FileValidator.validate
      { existsOnDisk := true, readable := true, ext := ".pdf",
        sizeBytes := 50 * 1024 * 1024 } = true ∧
    FileValidator.validate
      { existsOnDisk := true, readable := true, ext := ".pdf",
        sizeBytes := 50 * 1024 * 1024 + 1 } = false := by
  refine ⟨validate_true_iff f hex hrd, ?_, ?_⟩
  · exact (validate_true_iff _ rfl rfl).mpr ⟨by decide, by norm_num⟩
  · have h := validate_true_iff
      { existsOnDisk := true, readable := true, ext := ".pdf",
        sizeBytes := 50 * 1024 * 1024 + 1 } rfl rfl
    rcases hb : FileValidator.validate
      { existsOnDisk := true, readable := true, ext := ".pdf",
        sizeBytes := 50 * 1024 * 1024 + 1 } with _ | _
    · rfl
    · rw [hb] at h
      have h2 : (50 * 1024 * 1024 + 1 : ℕ) ≤ 50 * 1024 * 1024 := (h.mp rfl).2
      omega

/-- Witness for the amended C6 at a concrete file. -/
theorem file_validator_accepts_iff_witness :
    FileValidator.validate
      { existsOnDisk := true, readable := true, ext := ".PDF", sizeBytes := 1000 } = true ↔
      (strLower ".PDF" ∈ ALLOWED_EXTENSIONS ∧ (1000 : ℕ) ≤ 50 * 1024 * 1024) :=
  (file_validator_accepts_iff
    { existsOnDisk := true, readable := true, ext := ".PDF", sizeBytes := 1000 }
    rfl rfl).1

/-- A cache hit returns the embedding of the queried text: the stored value
under `hash x` was put there for some text `t` with `hash t = hash x`, and
hash injectivity forces `t = x`. -/
theorem embed_text_fst {V : Type} (hash : String → String) (embedder : String → V)
    (hinj : Function.Injective hash) (c : List (String × V))
    (hwf : cacheWF hash embedder c) (useCache : Bool) (x : String) :
    (embed_text hash embedder useCache c x).1 = embedder x := by
  rw [embed_text]
  cases useCache with
  | false => simp
  | true =>
      cases hl : assocLookup (hash x) c with
      | none => simp [hl]
      | some v =>
          simp only [hl, if_true]
          rw [assocLookup] at hl
          rcases Option.map_eq_some'.mp hl with ⟨p, hfind, hv⟩
          have hp1 : p.1 = hash x := by
            have := List.find?_some hfind
            simpa using this
          have hpmem : p ∈ c := List.mem_of_find?_eq_some hfind
          rcases hwf p hpmem with ⟨t, ht1, ht2⟩
          have : t = x := hinj (ht1 ▸ hp1)
          rw [← hv, ht2, this]

/-- C9: for every text, `embed_text` returns the freshly-computed embedding
whatever the (well-formed) cache state is — so two calls agree regardless of
cache contents — and it preserves both the cache invariant and the cache
size bound. -/
theorem embed_text_cache_transparent {V : Type} (hash : String → String)
    (embedder : String → V) (hinj : Function.Injective hash)
    (c1 c2 : List (String × V)) (h1 : cacheWF hash embedder c1)
    (h2 : cacheWF hash embedder c2) (useCache : Bool) (x : String) :
    (embed_text hash embedder useCache c1 x).1 = embedder x ∧
    (embed_text hash embedder useCache c1 x).1 =
      (embed_text hash embedder useCache c2 x).1 ∧
    cacheWF hash embedder (embed_text hash embedder useCache c1 x).2 ∧
    (c1.length ≤ cacheMaxSize →
      (embed_text hash embedder useCache c1 x).2.length ≤ cacheMaxSize) := by
  refine ⟨embed_text_fst hash embedder hinj c1 h1 useCache x, ?_, ?_, ?_⟩
  · rw [embed_text_fst hash embedder hinj c1 h1 useCache x,
      embed_text_fst hash embedder hinj c2 h2 useCache x]
  · rw [embed_text]
    cases useCache with
    | false => simpa using h1
    | true =>
        cases hl : assocLookup (hash x) c1 with
        | some v => simpa [hl] using h1
        | none =>
            simp only [hl, if_true]
            intro p hp
            rcases List.mem_append.mp hp with hp1 | hp2
            · by_cases hlen : cacheMaxSize ≤ c1.length
              · rw [if_pos hlen] at hp1
                exact h1 p (List.tail_sublist c1 |>.subset hp1)
              · rw [if_neg hlen] at hp1
                exact h1 p hp1
            · rcases List.mem_singleton.mp hp2 with rfl
              exact ⟨x, rfl, rfl⟩
  · intro hlen
    rw [embed_text]
    cases useCache with
    | false => simpa using hlen
    | true =>
        cases hl : assocLookup (hash x) c1 with
        | some v => simpa [hl] using hlen
        | none =>
            simp only [hl, if_true]
            by_cases hb : cacheMaxSize ≤ c1.length
            · rw [if_pos hb]
              simp only [List.length_append, List.length_tail, List.length_singleton]
              rw [cacheMaxSize] at hb hlen ⊢
              omega
            · rw [if_neg hb]
              simp only [List.length_append, List.length_singleton]
              rw [cacheMaxSize] at hb hlen ⊢
              omega

/-- Witness for C9 at a concrete hash, embedder, caches and text. -/
theorem embed_text_cache_transparent_witness :
    (embed_text (fun s => s) (fun s => s.data.length) true [("a", 1)] "ab").1 =
      ("ab").data.length :=
  (embed_text_cache_transparent (fun s => s) (fun s => s.data.length)
    (fun _ _ h => h) [("a", 1)] [] (fun p hp => by
      rcases List.mem_singleton.mp hp with rfl
      exact ⟨"a", rfl, rfl⟩)
    (fun p hp => by cases hp) true "ab").1

/-- C7 counterexample: with the backend down for the text space, `query`
returns a normal `status: "error"` dict instead of raising, and a merged
search over a failing text space and a working image space silently skips
the failed space and reports `status: "success"` with the image hit only —
no `StorageUnavailable` is propagated (no such type exists in the code). -/
theorem storage_failure_counterexample :
    (VectorStore.query (.error "Connection refused")).status = "error" ∧
    (VectorStore.query (.error "Connection refused")).message = "Connection refused" ∧
    (queryMultimodal
        (fun s => if s = "text_embedding" then .error "Connection refused"
          else .ok [{ id := "img1", content := "board", payload := [], score := 4/5 }])
        ["text_embedding", "image_embedding"] 10).status = "success" ∧
    ((queryMultimodal
        (fun s => if s = "text_embedding" then .error "Connection refused"
          else .ok [{ id := "img1", content := "board", payload := [], score := 4/5 }])
        ["text_embedding", "image_embedding"] 10).results.map MergedEntry.id) =
      ["img1"] := by
  refine ⟨rfl, rfl, ?_, ?_⟩ <;> decide

/-- C7 amended: a failed backend search is converted by `query` into a
`status: "error"` result dict (not a raised error); `query_multimodal`
always reports `status: "success"`, skipping failed spaces; only
`add_documents` propagates a (plain, untyped) backend exception to the
caller. -/
theorem storage_failure_amended :
    (∀ e, (VectorStore.query (.error e)).status = "error" ∧
      (VectorStore.query (.error e)).message = e ∧
      (VectorStore.query (.error e)).ids = []) ∧
    (∀ (backend : String → Except String (List Hit)) (spaces : List String)
        (n : ℕ), (queryMultimodal backend spaces n).status = "success") ∧
    (∀ (uuid : ℕ → String) (docs : List DocInput) (e : String) (fuel : ℕ),
      buildPoints uuid docs ≠ [] →
      addDocuments uuid (fun _ _ => .error (.generic e)) docs (fuel + 1) =
        some (.error e)) := by
  refine ⟨fun e => ⟨rfl, rfl, rfl⟩, fun backend spaces n => ?_, ?_⟩
  · rw [queryMultimodal]
    split <;> rfl
  · intro uuid docs e fuel hp
    have hdocs : docs ≠ [] := by
      rintro rfl
      exact hp rfl
    rw [addDocuments, addDocumentsAux, if_neg hdocs, if_neg hp]
    obtain ⟨q, qs, hq⟩ :
        ∃ q qs, batches100 (buildPoints uuid docs) = q :: qs := by
      cases hpts : buildPoints uuid docs with
      | nil => exact absurd hpts hp
      | cons x xs => exact ⟨_, _, by rw [batches100]⟩
    rw [hq, upsertBatches]

/-- Witness for the amended C7: a one-document upsert against a backend that
always raises surfaces the exception. -/
theorem storage_failure_amended_witness :
    addDocuments (fun _ => "u") (fun _ _ => .error (.generic "down"))
      [{ id := "d1", text_embedding := [1], image_embedding := [],
         audio_embedding := [], payload := [] }] 3 = some (.error "down") :=
  (storage_failure_amended.2.2) (fun _ => "u")
    [{ id := "d1", text_embedding := [1], image_embedding := [],
       audio_embedding := [], payload := [] }] "down" 2 (by decide)

/-- The first argmax is a valid index. -/
theorem firstArgmax_lt : ∀ l : List ℚ, l ≠ [] → firstArgmax l < l.length
  | [], h => absurd rfl h
  | [_], _ => by simp [firstArgmax]
  | x :: y :: rest, _ => by
      rw [firstArgmax]
      have ih := firstArgmax_lt (y :: rest) (by simp)
      split
      · simpa using ih
      · simp

/-- Every entry is bounded by the entry at the first argmax. -/
theorem firstArgmax_max : ∀ (l : List ℚ) (i : ℕ), i < l.length →
    l.getD i 0 ≤ l.getD (firstArgmax l) 0
  | [], i, h => by simp at h
  | [x], i, h => by
      have : i = 0 := by simpa using h
      subst this
      simp [firstArgmax]
  | x :: y :: rest, i, h => by
      rw [firstArgmax]
      split
      · rename_i hx
        rw [List.getD_cons_succ]
        cases i with
        | zero => rw [List.getD_cons_zero]; exact le_of_lt hx
        | succ i =>
            rw [List.getD_cons_succ]
            exact firstArgmax_max (y :: rest) i (by simpa using h)
      · rename_i hx
        rw [List.getD_cons_zero]
        cases i with
        | zero => simp
        | succ i =>
            rw [List.getD_cons_succ]
            exact le_trans
              (firstArgmax_max (y :: rest) i (by simpa using h)) (not_lt.mp hx)

/-- Entries strictly before the first argmax are strictly smaller. -/
theorem firstArgmax_first : ∀ (l : List ℚ) (i : ℕ), i < firstArgmax l →
    l.getD i 0 < l.getD (firstArgmax l) 0
  | [], i, h => by simp [firstArgmax] at h
  | [x], i, h => by simp [firstArgmax] at h
  | x :: y :: rest, i, h => by
      simp only [firstArgmax] at h ⊢
      by_cases hx : x < (y :: rest).getD (firstArgmax (y :: rest)) 0
      · rw [if_pos hx] at h ⊢
        rw [List.getD_cons_succ]
        cases i with
        | zero => rw [List.getD_cons_zero]; exact hx
        | succ i =>
            rw [List.getD_cons_succ]
            exact firstArgmax_first (y :: rest) i (by omega)
      · rw [if_neg hx] at h
        omega

/-- `pickMax` of a list extended by one element. -/
theorem pickMax_append_single (l : List (ℕ × ℚ)) (x p : ℕ × ℚ)
    (h : pickMax l = some p) :
    pickMax (l ++ [x]) = some (if x.2 > p.2 then x else p) := by
  cases l with
  | nil => simp [pickMax] at h
  | cons q qs =>
      rw [List.cons_append, pickMax, List.foldl_append]
      rw [pickMax] at h
      have hq : qs.foldl (fun best r => if r.2 > best.2 then r else best) q = p :=
        Option.some.inj h
      rw [hq]
      simp

/-- `pickMax` over `[(i, v i) | i < n]` returns the first argmax of `v` on
`[0, n)`. -/
theorem pickMax_range (v : ℕ → ℚ) : ∀ n : ℕ, 0 < n →
    ∃ j, pickMax ((List.range n).map (fun i => (i, v i))) = some (j, v j) ∧
      j < n ∧ (∀ i < n, v i ≤ v j) ∧ (∀ i < j, v i < v j) := by
  intro n
  induction n with
  | zero => omega
  | succ n ih =>
      intro _
      by_cases hn : n = 0
      · subst hn
        refine ⟨0, by simp [pickMax, List.range_succ], by omega, ?_, by omega⟩
        intro i hi
        have : i = 0 := by omega
        subst this
        exact le_refl _
      · obtain ⟨j, hpick, hjlt, hmax, hfirst⟩ := ih (by omega)
        rw [List.range_succ, List.map_append, List.map_singleton]
        rw [pickMax_append_single _ _ _ hpick]
        by_cases hv : v n > v j
        · rw [if_pos hv]
          refine ⟨n, rfl, by omega, ?_, ?_⟩
          · intro i hi
            rcases Nat.lt_succ_iff_lt_or_eq.mp hi with hi | rfl
            · exact le_of_lt (lt_of_le_of_lt (hmax i hi) hv)
            · exact le_refl _
          · intro i hi
            exact lt_of_le_of_lt (hmax i hi) hv
        · rw [if_neg hv]
          refine ⟨j, rfl, by omega, ?_, hfirst⟩
          intro i hi
          rcases Nat.lt_succ_iff_lt_or_eq.mp hi with hi | rfl
          · exact hmax i hi
          · exact not_lt.mp hv

/-- `getD` at a valid index is `get`. -/
theorem getD_of_lt {β : Type} [Inhabited β] :
    ∀ (l : List β) (i : ℕ) (h : i < l.length), l.getD i default = l.get ⟨i, h⟩
  | _ :: _, 0, _ => rfl
  | _ :: l, i + 1, h => getD_of_lt l i (by simpa using h)

/-- C8: for a non-empty candidate list with matching embedding list, any
positive λ and any positive requested size, MMR reranking returns first the
candidate at the first argmax of the query similarities — the
highest-similarity item is preserved in position one (ties broken by the
selection's argmax, i.e. the earliest index). -/
theorem mmr_first_result_is_argmax {α : Type} [Inhabited α]
    (cosSim : List ℚ → List ℚ → ℚ) (methodOf : α → String) (lam : ℚ)
    (q : List ℚ) (docs : List α) (embs : List (List ℚ)) (topk : ℕ)
    (hne : docs ≠ []) (hlen : docs.length = embs.length)
    (hk : 0 < topk) (hlam : 0 < lam) :
    ((MMRReranker.rerank cosSim methodOf lam q docs embs topk).head?).map
        MMROut.doc
      = docs.get? (firstArgmax (embs.map (cosSim q))) ∧
    ∀ s ∈ embs.map (cosSim q),
      s ≤ (embs.map (cosSim q)).getD (firstArgmax (embs.map (cosSim q))) 0 := by
  have hn : 0 < docs.length := List.length_pos.mpr hne
  have hsimslen : (embs.map (cosSim q)).length = docs.length := by
    rw [List.length_map, hlen]
  have hsimsne : embs.map (cosSim q) ≠ [] :=
    List.ne_nil_of_length_pos (hsimslen ▸ hn)
  have ha : firstArgmax (embs.map (cosSim q)) < docs.length :=
    hsimslen ▸ firstArgmax_lt _ hsimsne
  constructor
  · -- the selection's first pick
    have hembne : embs ≠ [] := by
      intro hcon
      rw [hcon] at hlen
      simp at hlen
      exact hne hlen
    rw [MMRReranker.rerank]
    rw [if_neg (by simp [hne, hembne])]
    rw [if_neg (by intro hcon; exact hcon hlen)]
    obtain ⟨m, hm⟩ : ∃ m, min topk docs.length = m + 1 :=
      Nat.exists_eq_succ_of_ne_zero (by positivity)
    simp only [hm]
    rw [mmrSelect]
    rw [if_neg (by simp only [List.range_eq_nil]; omega)]
    have hmeq :
        (List.range docs.length).map (fun idx =>
          (idx, lam * (embs.map (cosSim q)).getD idx 0 -
            (1 - lam) * (if ([] : List ℕ) = [] then 0
              else listMaxD (([] : List ℕ).map
                (fun s => simMatrixAt cosSim embs idx s))))) =
        (List.range docs.length).map (fun i =>
          (i, lam * (embs.map (cosSim q)).getD i 0 - (1 - lam) * 0)) := by
      refine List.map_congr_left (fun i _ => ?_)
      simp
    rw [hmeq]
    obtain ⟨j, hpick, hjlt, hmax, hfirst⟩ :=
      pickMax_range (fun i => lam * (embs.map (cosSim q)).getD i 0 - (1 - lam) * 0)
        docs.length hn
    have hj : j = firstArgmax (embs.map (cosSim q)) := by
      have hstep : ∀ i k : ℕ,
          lam * (embs.map (cosSim q)).getD i 0 - (1 - lam) * 0 ≤
            lam * (embs.map (cosSim q)).getD k 0 - (1 - lam) * 0 ↔
          (embs.map (cosSim q)).getD i 0 ≤ (embs.map (cosSim q)).getD k 0 := by
        intro i k
        rw [mul_zero, sub_zero, sub_zero]
        exact ⟨fun h => le_of_mul_le_mul_left h hlam,
          fun h => mul_le_mul_of_nonneg_left h (le_of_lt hlam)⟩
      rcases lt_trichotomy j (firstArgmax (embs.map (cosSim q))) with h | h | h
      · have h1 := firstArgmax_first (embs.map (cosSim q)) j h
        have h2 := (hstep _ j).mp (hmax _ ha)
        exact absurd h2 (not_le.mpr h1)
      · exact h
      · have h1 := firstArgmax_max (embs.map (cosSim q)) j (hsimslen ▸ hjlt)
        have h2 := (hstep j _).mpr h1
        have h3 := hfirst _ h
        exact absurd h2 (not_le.mpr h3)
    simp only [hpick, List.enum_cons, List.map_cons, List.head?_cons,
      Option.map_some', MMROut.doc]
    rw [hj, List.get?_eq_get (hj ▸ hjlt), getD_of_lt docs _ (hj ▸ hjlt)]
  · -- the first argmax really is the maximum similarity
    intro s hs
    rcases List.mem_iff_get.mp hs with ⟨⟨i, hi⟩, rfl⟩
    rw [← getD_of_lt _ i hi]
    exact firstArgmax_max (embs.map (cosSim q)) i hi

/-- Witness for C8: two candidates with similarities 1 and 2 under the
configured λ = 0.7; the higher-similarity candidate comes first. -/
theorem mmr_first_result_is_argmax_witness :
    ((MMRReranker.rerank (fun _ b => b.headD 0) (fun _ => "dense")
        mmr_lambda [1] ([10, 20] : List ℕ) [[1], [2]] 10).head?).map
      MMROut.doc = some 20 := by
  have h := (mmr_first_result_is_argmax (fun _ b => b.headD 0)
    (fun _ => "dense") mmr_lambda [1] ([10, 20] : List ℕ) [[1], [2]] 10
    (by decide) (by decide) (by decide) (by rw [mmr_lambda]; norm_num)).1
  rw [h]
  decide

/-- The id of a bumped entry is unchanged. -/
theorem bumpEntry_id (space : String) (v : ℚ) (r : MergedEntry) :
    (bumpEntry space v r).id = r.id := rfl

/-- `updateEntry` does not change the id sequence. -/
theorem updateEntry_map_id (space : String) (v : ℚ) (id : String) :
    ∀ l : List MergedEntry,
      (updateEntry space v id l).map (·.id) = l.map (·.id)
  | [] => rfl
  | r :: rs => by
      rw [updateEntry]
      split
      · simp [bumpEntry]
      · simp [updateEntry_map_id space v id rs]

/-- Membership of an id in the accumulator is the same as `entryFor`
succeeding. -/
theorem contains_iff_entryFor (l : List MergedEntry) (x : String) :
    (l.map (·.id)).contains x = (entryFor l x).isSome := by
  induction l with
  | nil => rfl
  | cons r rs ih =>
      rw [entryFor]
      by_cases h : r.id = x
      · simp [h]
      · rw [if_neg h, ← ih, List.map_cons, List.contains_cons]
        have hne : (x == r.id) = false := by
          simp only [beq_eq_false_iff_ne, ne_eq]
          exact fun hc => h hc.symm
        rw [hne, Bool.false_or]

/-- `entryFor` after updating the first entry with the given id. -/
theorem entryFor_updateEntry (space : String) (v : ℚ) (id : String) :
    ∀ (l : List MergedEntry) (x : String),
      entryFor (updateEntry space v id l) x =
        if x = id then (entryFor l id).map (bumpEntry space v)
        else entryFor l x
  | [], x => by
      by_cases hx : x = id <;> simp [hx, entryFor, updateEntry]
  | r :: rs, x => by
      rw [updateEntry]
      by_cases hr : r.id = id
      · rw [if_pos hr]
        by_cases hx : x = id
        · subst hx
          rw [if_pos rfl]
          simp only [entryFor]
          have hb : (bumpEntry space v r).id = x := by rw [bumpEntry_id, hr]
          rw [if_pos hb, if_pos hr]
          rfl
        · rw [if_neg hx]
          have hbx : ¬ (bumpEntry space v r).id = x := by
            rw [bumpEntry_id, hr]
            exact fun hc => hx hc.symm
          have hrx : ¬ r.id = x := by
            rw [hr]
            exact fun hc => hx hc.symm
          simp only [entryFor]
          rw [if_neg hbx, if_neg hrx]
      · rw [if_neg hr]
        by_cases hx : x = id
        · subst hx
          rw [if_pos rfl]
          simp only [entryFor]
          rw [if_neg hr, if_neg hr,
            entryFor_updateEntry space v x rs x, if_pos rfl]
        · rw [if_neg hx]
          simp only [entryFor]
          by_cases hrx : r.id = x
          · rw [if_pos hrx, if_pos hrx]
          · rw [if_neg hrx, if_neg hrx,
              entryFor_updateEntry space v id rs x, if_neg hx]

/-- `entryFor` over an append searches left first. -/
theorem entryFor_append :
    ∀ (l1 l2 : List MergedEntry) (x : String),
      entryFor (l1 ++ l2) x =
        match entryFor l1 x with
        | some r => some r
        | none => entryFor l2 x
  | [], l2, x => rfl
  | r :: rs, l2, x => by
      rw [List.cons_append, entryFor, entryFor]
      by_cases h : r.id = x
      · rw [if_pos h, if_pos h]
      · rw [if_neg h, if_neg h, entryFor_append rs l2 x]

/-- Effect of one merge step on the entry for any id. -/
theorem entryFor_mergeHit (space : String) (acc : List MergedEntry) (h : Hit)
    (x : String) :
    entryFor (mergeHit space acc h) x =
      if x = h.id then
        some (match entryFor acc h.id with
          | none => freshEntry space h
          | some r => bumpEntry space h.score r)
      else entryFor acc x := by
  rw [mergeHit]
  by_cases hc : (acc.map (·.id)).contains h.id = true
  · rw [if_pos hc]
    rw [contains_iff_entryFor] at hc
    rcases Option.isSome_iff_exists.mp hc with ⟨r, hr⟩
    rw [entryFor_updateEntry, hr]
    by_cases hx : x = h.id
    · rw [if_pos hx, if_pos hx]
      rfl
    · rw [if_neg hx, if_neg hx]
  · rw [if_neg hc]
    rw [contains_iff_entryFor] at hc
    have hnone : entryFor acc h.id = none :=
      Option.not_isSome_iff_eq_none.mp (by simpa using hc)
    rw [entryFor_append]
    by_cases hx : x = h.id
    · subst hx
      simp [hnone, entryFor, freshEntry]
    · rw [if_neg hx]
      have hfx : ¬ (freshEntry space h).id = x := fun hc2 => hx (hc2.symm)
      cases hacc : entryFor acc x with
      | some r => rfl
      | none => simp [entryFor, hfx]

/-- Ids after one merge step. -/
theorem mergeHit_map_id (space : String) (acc : List MergedEntry) (h : Hit) :
    (mergeHit space acc h).map (·.id) =
      if (acc.map (·.id)).contains h.id then acc.map (·.id)
      else acc.map (·.id) ++ [h.id] := by
  rw [mergeHit]
  by_cases hc : (acc.map (·.id)).contains h.id = true
  · rw [if_pos hc, if_pos hc, updateEntry_map_id]
  · rw [if_neg hc, if_neg hc, List.map_append]
    rfl

/-- One merge step preserves id distinctness. -/
theorem mergeHit_nodup (space : String) (acc : List MergedEntry) (h : Hit)
    (hnd : (acc.map (·.id)).Nodup) :
    ((mergeHit space acc h).map (·.id)).Nodup := by
  rw [mergeHit_map_id]
  by_cases hc : (acc.map (·.id)).contains h.id = true
  · rw [if_pos hc]
    exact hnd
  · rw [if_neg hc]
    have : h.id ∉ acc.map (·.id) := by
      intro hm
      exact hc (by simpa using hm)
    simp [List.nodup_append, hnd, this]

/-- A hit found by id carries that id. -/
theorem hitFor_some :
    ∀ (hits : List Hit) (x : String) (h : Hit),
      hitFor hits x = some h → h.id = x
  | [], _, _, hc => by cases hc
  | h0 :: hs, x, h, hc => by
      rw [hitFor] at hc
      by_cases h0x : h0.id = x
      · rw [if_pos h0x] at hc
        cases hc
        exact h0x
      · rw [if_neg h0x] at hc
        exact hitFor_some hs x h hc

/-- Ids absent from a hit list are not found. -/
theorem hitFor_none :
    ∀ (hits : List Hit) (x : String), x ∉ hits.map (·.id) →
      hitFor hits x = none
  | [], _, _ => rfl
  | h0 :: hs, x, hnm => by
      rw [hitFor]
      rw [List.map_cons, List.mem_cons] at hnm
      push_neg at hnm
      rw [if_neg (fun hc => hnm.1 hc.symm)]
      exact hitFor_none hs x hnm.2

/-- `entryFor` after folding one space's hits into the accumulator. -/
theorem entryFor_foldl_hits (space : String) :
    ∀ (hits : List Hit) (acc : List MergedEntry) (x : String),
      ((hits.map (·.id)).Nodup) →
      entryFor (hits.foldl (mergeHit space) acc) x =
        match hitFor hits x with
        | none => entryFor acc x
        | some h =>
            some (match entryFor acc x with
              | none => freshEntry space h
              | some r => bumpEntry space h.score r)
  | [], acc, x, _ => rfl
  | h0 :: hs, acc, x, hnd => by
      rw [List.foldl_cons, hitFor]
      rw [List.map_cons, List.nodup_cons] at hnd
      by_cases hx : x = h0.id
      · rw [if_pos (hx ▸ rfl)]
        rw [entryFor_foldl_hits space hs _ x hnd.2]
        rw [hitFor_none hs x (hx ▸ hnd.1)]
        rw [entryFor_mergeHit, if_pos hx]
        subst hx
        rfl
      · rw [if_neg (fun hc => hx hc.symm)]
        rw [entryFor_foldl_hits space hs _ x hnd.2]
        cases hh : hitFor hs x with
        | none => rw [entryFor_mergeHit, if_neg hx]
        | some h => rw [entryFor_mergeHit, if_neg hx]

/-- Folding a space's hits preserves id distinctness. -/
theorem foldl_mergeHit_nodup (space : String) :
    ∀ (hits : List Hit) (acc : List MergedEntry),
      ((acc.map (·.id)).Nodup) →
      (((hits.foldl (mergeHit space) acc).map (·.id)).Nodup)
  | [], acc, hnd => hnd
  | h0 :: hs, acc, hnd => by
      rw [List.foldl_cons]
      exact foldl_mergeHit_nodup space hs _ (mergeHit_nodup space acc h0 hnd)

/-- `mergeSpace` is the fold of the space's hits: a failed space contributes
no hits, and a successful `query` result has status `"success"`. -/
theorem mergeSpace_eq (backend : String → Except String (List Hit))
    (acc : List MergedEntry) (s : String) :
    mergeSpace backend acc s = (spaceHits backend s).foldl (mergeHit s) acc := by
  rw [mergeSpace, spaceHits]
  cases hb : backend s with
  | ok hits => simp [VectorStore.query]
  | error e => simp [VectorStore.query]

/-- `matchingSpaces` over one more processed space. -/
theorem matchingSpaces_append_single
    (backend : String → Except String (List Hit)) (pr : List String)
    (s x : String) :
    matchingSpaces backend (pr ++ [s]) x =
      matchingSpaces backend pr x ++
        (if (findHitScore backend s x).isSome then [s] else []) := by
  rw [matchingSpaces, matchingSpaces, List.filter_append]
  congr 1
  by_cases h : (findHitScore backend s x).isSome <;> simp [List.filter, h]

/-- `scoresFor` over one more processed space. -/
theorem scoresFor_append_single
    (backend : String → Except String (List Hit)) (pr : List String)
    (s x : String) :
    scoresFor backend (pr ++ [s]) x =
      scoresFor backend pr x ++ (findHitScore backend s x).toList := by
  rw [scoresFor, scoresFor, List.filterMap_append]
  congr 1

/-- A chunk that matched nowhere has no scores. -/
theorem scoresFor_nil_of_matching_nil
    (backend : String → Except String (List Hit)) (pr : List String)
    (x : String) (h : matchingSpaces backend pr x = []) :
    scoresFor backend pr x = [] := by
  rw [matchingSpaces] at h
  rw [scoresFor]
  refine List.filterMap_eq_nil_iff.mpr (fun s hs => ?_)
  have := List.filter_eq_nil_iff.mp h s hs
  exact Option.not_isSome_iff_eq_none.mp (by simpa using this)

/-- The merge invariant survives processing one more space. -/
theorem mergeInv_step (backend : String → Except String (List Hit))
    (processed : List String) (acc : List MergedEntry) (s : String)
    (hinv : mergeInv backend processed acc)
    (hnd : ((spaceHits backend s).map (·.id)).Nodup) :
    mergeInv backend (processed ++ [s]) (mergeSpace backend acc s) := by
  obtain ⟨hacc, hall⟩ := hinv
  rw [mergeSpace_eq]
  refine ⟨foldl_mergeHit_nodup s _ acc hacc, fun x => ?_⟩
  rw [entryFor_foldl_hits s _ acc x hnd]
  have hms := matchingSpaces_append_single backend processed s x
  have hss := scoresFor_append_single backend processed s x
  have hthis := hall x
  cases hh : hitFor (spaceHits backend s) x with
  | none =>
      have hfs : findHitScore backend s x = none := by
        rw [findHitScore, hh]
        rfl
      rw [hfs] at hms hss
      simp only [Option.isSome_none, Bool.false_eq_true, if_false,
        List.append_nil, Option.toList_none] at hms hss
      cases he : entryFor acc x with
      | none =>
          rw [he] at hthis
          simp only [he]
          rw [hms]
          exact hthis
      | some r =>
          rw [he] at hthis
          simp only [he]
          rw [hms, hss]
          exact hthis
  | some h =>
      have hid := hitFor_some _ _ _ hh
      have hfs : findHitScore backend s x = some h.score := by
        rw [findHitScore, hh]
        rfl
      rw [hfs] at hms hss
      simp only [Option.isSome_some, if_true, Option.toList_some] at hms hss
      cases he : entryFor acc x with
      | none =>
          rw [he] at hthis
          have hsc := scoresFor_nil_of_matching_nil backend processed x hthis
          simp only [he]
          refine ⟨hid, ?_, ?_, ?_⟩
          · rw [hms, hthis]
            rfl
          · rw [hss, hsc]
            simp [freshEntry]
          · intro q hq
            rw [hss, hsc] at hq
            simp only [List.nil_append, List.mem_singleton] at hq
            subst hq
            exact le_refl _
      | some r =>
          rw [he] at hthis
          obtain ⟨hidr, hmsp, hmem, hbound⟩ := hthis
          simp only [he]
          refine ⟨hidr, ?_, ?_, ?_⟩
          · show r.matched_spaces ++ [s] = _
            rw [hms, hmsp]
          · show (if h.score > r.score then h.score else r.score) ∈ _
            rw [hss]
            by_cases hgt : h.score > r.score
            · rw [if_pos hgt]
              exact List.mem_append_right _ (List.mem_singleton.mpr rfl)
            · rw [if_neg hgt]
              exact List.mem_append_left _ hmem
          · intro q hq
            rw [hss] at hq
            show q ≤ if h.score > r.score then h.score else r.score
            rcases List.mem_append.mp hq with hq | hq
            · have := hbound q hq
              by_cases hgt : h.score > r.score
              · rw [if_pos hgt]
                exact le_trans this (le_of_lt hgt)
              · rw [if_neg hgt]
                exact this
            · rw [List.mem_singleton.mp hq]
              by_cases hgt : h.score > r.score
              · rw [if_pos hgt]
              · rw [if_neg hgt]
                exact not_lt.mp hgt

/-- The merge invariant holds after folding any list of spaces. -/
theorem mergeInv_foldl (backend : String → Except String (List Hit))
    (hnd : ∀ s, ((spaceHits backend s).map (·.id)).Nodup) :
    ∀ (spaces processed : List String) (acc : List MergedEntry),
      mergeInv backend processed acc →
      mergeInv backend (processed ++ spaces)
        (spaces.foldl (mergeSpace backend) acc)
  | [], processed, acc, hinv => by simpa using hinv
  | s :: ss, processed, acc, hinv => by
      rw [List.foldl_cons]
      have h1 := mergeInv_step backend processed acc s hinv (hnd s)
      have h2 := mergeInv_foldl backend hnd ss (processed ++ [s]) _ h1
      simpa using h2

/-- The merge invariant for `mergeAll`. -/
theorem mergeAll_inv (backend : String → Except String (List Hit))
    (spaces : List String)
    (hnd : ∀ s, ((spaceHits backend s).map (·.id)).Nodup) :
    mergeInv backend spaces (mergeAll backend spaces) := by
  have h0 : mergeInv backend [] [] := by
    refine ⟨List.nodup_nil, fun x => ?_⟩
    rfl
  have := mergeInv_foldl backend hnd spaces [] [] h0
  simpa [mergeAll] using this

/-- Sorted insertion is a permutation of consing. -/
theorem insertDesc_perm (x : MergedEntry) :
    ∀ l : List MergedEntry, List.Perm (insertDesc x l) (x :: l)
  | [] => List.Perm.refl _
  | y :: ys => by
      rw [insertDesc]
      by_cases hxy : x.score > y.score
      · rw [if_pos hxy]
      · rw [if_neg hxy]
        exact ((insertDesc_perm x ys).cons y).trans (List.Perm.swap x y ys)

/-- The stable sort permutes its input. -/
theorem sortByScoreDesc_perm_aux :
    ∀ (l acc : List MergedEntry),
      List.Perm (l.foldl (fun a y => insertDesc y a) acc) (acc ++ l)
  | [], acc => by simp
  | x :: xs, acc => by
      rw [List.foldl_cons]
      refine (sortByScoreDesc_perm_aux xs (insertDesc x acc)).trans ?_
      refine (((insertDesc_perm x acc).append_right xs).trans ?_)
      rw [List.cons_append]
      exact List.perm_middle.symm

/-- `sortByScoreDesc` permutes its input. -/
theorem sortByScoreDesc_perm (l : List MergedEntry) :
    List.Perm (sortByScoreDesc l) l := by
  have := sortByScoreDesc_perm_aux l []
  simpa [sortByScoreDesc] using this

/-- With distinct ids, the entry found for a member's id is that member. -/
theorem entryFor_of_mem :
    ∀ (l : List MergedEntry), ((l.map (·.id)).Nodup) →
      ∀ r ∈ l, entryFor l r.id = some r
  | [], _, r, hr => by cases hr
  | a :: as, hnd, r, hr => by
      rw [List.map_cons, List.nodup_cons] at hnd
      rw [entryFor]
      rcases List.mem_cons.mp hr with rfl | hmem
      · rw [if_pos rfl]
      · by_cases ha : a.id = r.id
        · exact absurd (ha ▸ List.mem_map_of_mem (·.id) hmem) hnd.1
        · rw [if_neg ha]
          exact entryFor_of_mem as hnd.2 r hmem

/-- C5: provided each backend search returns distinct point ids (Qdrant
returns each point at most once per search), a merged cross-space search
lists each chunk id at most once; each result's `matched_spaces` is exactly
the list of searched spaces in which the chunk matched; and its reported
similarity is the maximum of its per-space similarities. -/
theorem merged_search_dedups_and_maxes
    (backend : String → Except String (List Hit)) (spaces : List String)
    (n : ℕ) (hnd : ∀ s, ((spaceHits backend s).map (·.id)).Nodup) :
    (((queryMultimodal backend spaces n).results.map MergedEntry.id).Nodup) ∧
    ∀ r ∈ (queryMultimodal backend spaces n).results,
      r.matched_spaces = matchingSpaces backend spaces r.id ∧
      r.score ∈ scoresFor backend spaces r.id ∧
      ∀ q ∈ scoresFor backend spaces r.id, q ≤ r.score := by
  obtain ⟨hall_nd, hall⟩ := mergeAll_inv backend spaces hnd
  have hperm := sortByScoreDesc_perm (mergeAll backend spaces)
  have hres : ∀ r ∈ (queryMultimodal backend spaces n).results,
      r ∈ mergeAll backend spaces := by
    intro r hr
    rw [queryMultimodal] at hr
    by_cases hempty : mergeAll backend spaces = []
    · rw [if_pos hempty] at hr
      simp at hr
    · rw [if_neg hempty] at hr
      have : r ∈ sortByScoreDesc (mergeAll backend spaces) :=
        List.mem_of_mem_take hr
      exact hperm.mem_iff.mp this
  constructor
  · rw [queryMultimodal]
    by_cases hempty : mergeAll backend spaces = []
    · rw [if_pos hempty]
      simp
    · rw [if_neg hempty]
      have h1 : ((sortByScoreDesc (mergeAll backend spaces)).map
          MergedEntry.id).Nodup :=
        ((hperm.map MergedEntry.id).nodup_iff).mpr hall_nd
      exact List.Nodup.sublist
        ((List.take_sublist n _).map MergedEntry.id) h1
  · intro r hr
    have hrmem := hres r hr
    have he := entryFor_of_mem (mergeAll backend spaces) hall_nd r hrmem
    have hx := hall r.id
    rw [he] at hx
    exact ⟨hx.2.1, hx.2.2.1, hx.2.2.2⟩

/-- Witness for C5: chunk "a" matches in both spaces (scores 1 and 2),
chunk "b" only in the text space. -/
theorem merged_search_dedups_and_maxes_witness :
    (((queryMultimodal
        (fun s => if s = "text_embedding" then
            .ok [{ id := "a", content := "ca", payload := [], score := 1 },
                 { id := "b", content := "cb", payload := [], score := 3 }]
          else if s = "image_embedding" then
            .ok [{ id := "a", content := "ca2", payload := [], score := 2 }]
          else .ok [])
        ["text_embedding", "image_embedding"] 10).results.map
          MergedEntry.id).Nodup) ∧
    ∀ r ∈ (queryMultimodal
        (fun s => if s = "text_embedding" then
            .ok [{ id := "a", content := "ca", payload := [], score := 1 },
                 { id := "b", content := "cb", payload := [], score := 3 }]
          else if s = "image_embedding" then
            .ok [{ id := "a", content := "ca2", payload := [], score := 2 }]
          else .ok [])
        ["text_embedding", "image_embedding"] 10).results,
      r.matched_spaces = matchingSpaces
        (fun s => if s = "text_embedding" then
            .ok [{ id := "a", content := "ca", payload := [], score := 1 },
                 { id := "b", content := "cb", payload := [], score := 3 }]
          else if s = "image_embedding" then
            .ok [{ id := "a", content := "ca2", payload := [], score := 2 }]
          else .ok [])
        ["text_embedding", "image_embedding"] r.id ∧
      r.score ∈ scoresFor
        (fun s => if s = "text_embedding" then
            .ok [{ id := "a", content := "ca", payload := [], score := 1 },
                 { id := "b", content := "cb", payload := [], score := 3 }]
          else if s = "image_embedding" then
            .ok [{ id := "a", content := "ca2", payload := [], score := 2 }]
          else .ok [])
        ["text_embedding", "image_embedding"] r.id ∧
      ∀ q ∈ scoresFor
        (fun s => if s = "text_embedding" then
            .ok [{ id := "a", content := "ca", payload := [], score := 1 },
                 { id := "b", content := "cb", payload := [], score := 3 }]
          else if s = "image_embedding" then
            .ok [{ id := "a", content := "ca2", payload := [], score := 2 }]
          else .ok [])
        ["text_embedding", "image_embedding"] r.id, q ≤ r.score :=
  merged_search_dedups_and_maxes
    (fun s => if s = "text_embedding" then
        .ok [{ id := "a", content := "ca", payload := [], score := 1 },
             { id := "b", content := "cb", payload := [], score := 3 }]
      else if s = "image_embedding" then
        .ok [{ id := "a", content := "ca2", payload := [], score := 2 }]
      else .ok [])
    ["text_embedding", "image_embedding"] 10
    (fun s => by
      rw [spaceHits]
      by_cases h1 : s = "text_embedding"
      · subst h1
        decide
      · by_cases h2 : s = "image_embedding"
        · subst h2
          decide
        · simp [h1, h2])

end Pluto
